import Mathlib

/-!
# Server lifecycle of `main.go`

A shallow embedding of `Start`, `HTMLServer.Stop`, the listener goroutine launched by
`Start`, and `main`, as an interleaving state machine, one step per source statement.

* Go `error` values are `Option String` (`none` is `nil`).
* `time.Duration` and clock readings are integers counting nanoseconds.
* `sync.WaitGroup` is its counter.  `Add` and `Done` are plain arithmetic on the counter, so
  that "the counter never becomes negative" is a theorem and not a convention; `Wait` is a
  step that is enabled only while the counter is zero.
* `http.Server.Shutdown`, `http.Server.Close` and `http.Server.ListenAndServe` belong to the
  Go standard library.  Their results are inputs of the machine: every result, at every
  moment, is allowed.
-/

namespace LOLPal

/-- A Go `error`; `none` is `nil`. -/
abbrev GoError := Option String

/-- The constant `time.Second`, in nanoseconds. -/
def Second : Int := 1000000000

/-- The struct `Config` (lines 54-58). -/
structure Config where
  Host : String
  ReadTimeout : Int
  WriteTimeout : Int
deriving DecidableEq, Repr

/-- The fields of `http.Server` that `Start` sets (lines 81-87).  `Handler` is the router,
represented by the patterns registered on it. -/
structure Server where
  Addr : String
  Handler : List String
  ReadTimeout : Int
  WriteTimeout : Int
  MaxHeaderBytes : Int
deriving DecidableEq, Repr

/-- The struct `HTMLServer` (lines 61-64): the server and the counter of its `WaitGroup`. -/
structure HTMLServer where
  server : Server
  wg : Int
deriving DecidableEq, Repr

/-- The routes registered on the router (lines 74-77). -/
def routes : List String := ["/", "/second", "/third/\x7bnumber\x7d", "/static/"]

/-- The literal `1 << 20` of line 86. -/
def maxHeaderBytes : Int := ((1 <<< 20 : Nat) : Int)

/-- The composite literal of lines 81-87. -/
def newServer (cfg : Config) : Server :=
  { Addr := cfg.Host
    Handler := routes
    ReadTimeout := cfg.ReadTimeout
    WriteTimeout := cfg.WriteTimeout
    MaxHeaderBytes := maxHeaderBytes }

/-- The constant `timeout` of line 106: `5 * time.Second`. -/
def timeout : Int := 5 * Second

/-- `context.WithTimeout(parent, d)` is `WithDeadline(parent, time.Now().Add(d))`: the deadline
of the context created when the clock reads `now`. -/
def withTimeoutDeadline (now d : Int) : Int := now + d

/-- Program points of `Start` (lines 67-101): the statement to execute next. -/
inductive StartPc
  | ctx        -- line 69-70: context.WithCancel, defer cancel()
  | router     -- lines 73-77
  | server     -- lines 80-88
  | add        -- line 91: htmlServer.wg.Add(1)
  | go         -- line 94: go func() ...
  | ret        -- line 100: return &htmlServer (runs the deferred cancel)
deriving DecidableEq, Repr

/-- Program points of `Stop` (lines 104-126): the statement to execute next. -/
inductive StopPc
  | ctx          -- lines 107-108: context.WithTimeout, defer cancel()
  | printf       -- line 110
  | shutdown     -- line 114: err := htmlServer.server.Shutdown(ctx)
  | close        -- line 116: err := htmlServer.server.Close()
  | printErr     -- line 117
  | retErr       -- line 118: return err
  | wait         -- line 123: htmlServer.wg.Wait()
  | printStopped -- line 124
  | retNil       -- line 125: return nil
deriving DecidableEq, Repr

/-- The local variables of one call of `Stop`. -/
structure StopFrame where
  /-- The clock reading taken by `context.WithTimeout` (line 107). -/
  now : Int
  /-- The deadline of `ctx` (line 107). -/
  ctx : Int
  /-- The variable `err` of line 114: what `Shutdown` returned. -/
  err : GoError
  /-- The variable `err` of line 116: what `Close` returned. -/
  closeErr : GoError
deriving DecidableEq, Repr

/-- The thread that calls `Start` and then `Stop` on the handle. -/
inductive Caller
  | inStart (pc : StartPc)
  /-- `Start` has returned; `Stop` has not been called yet. -/
  | started
  | inStop (pc : StopPc) (f : StopFrame)
  /-- The last call of `Stop` has returned `r`; `f` holds its locals at the return. -/
  | stopped (f : StopFrame) (r : GoError)
deriving DecidableEq, Repr

/-- The goroutine of lines 94-98. -/
inductive Listener
  | notStarted   -- the go statement has not been executed
  | printf       -- line 95 is next
  | listen       -- line 96 is next: ListenAndServe has not been called yet
  | serving      -- inside ListenAndServe: the accept loop is running
  | done         -- ListenAndServe has returned; line 97, wg.Done(), is next
  | exited       -- the goroutine has returned
deriving DecidableEq, Repr

/-- What the program does, in the order in which it does it. -/
inductive Event
  -- Start
  | withCancel
  | newRouter (patterns : List String)
  | newServer (srv : Server)
  | wgAdd (delta : Int)
  | goListener
  | startReturn
  -- the listener goroutine
  | listenerPrintf (format : String) (args : List String)
  | listenCall
  | listenReturn (e : GoError)
  | wgDone
  -- Stop
  | stopCall
  | withTimeout (now deadline : Int)
  | printf (format : String) (args : List String)
  | shutdown (deadline : Int) (e : GoError)
  | close (e : GoError)
  | wgWait
  | cancel
  | stopReturn (r : GoError)
  -- main
  | startCall
  | deferStop
  | makeChan
  | notify
  | interrupt
  | sigRecv
  | println (text : String)
  | mainReturn
deriving DecidableEq, Repr

/-- The state of one server handle and of the two threads that work on it.  The trace has the
latest event first. -/
structure Sys where
  cfg : Config
  /-- The field `htmlServer.server`; `none` until line 80 has been executed. -/
  server : Option Server
  /-- The counter of `htmlServer.wg`. -/
  wg : Int
  /-- What `Start` returned: the server the handle points to; `none` until `Start` returns. -/
  handle : Option Server
  caller : Caller
  listener : Listener
  trace : List Event
deriving DecidableEq, Repr

/-- The state in which `Start(cfg)` has just been called. -/
def Sys.init (cfg : Config) : Sys :=
  { cfg := cfg, server := none, wg := 0, handle := none,
    caller := .inStart .ctx, listener := .notStarted, trace := [] }

/-- The struct `htmlServer` as it stands in a state. -/
def Sys.htmlServer (s : Sys) : Option HTMLServer :=
  s.server.map fun srv => { server := srv, wg := s.wg }

/-- One statement of `Start` (lines 67-101). -/
def Start.step (s : Sys) : StartPc → Sys
  | .ctx => { s with caller := .inStart .router, trace := .withCancel :: s.trace }
  | .router => { s with caller := .inStart .server, trace := .newRouter routes :: s.trace }
  | .server =>
    { s with server := some (newServer s.cfg), caller := .inStart .add,
             trace := .newServer (newServer s.cfg) :: s.trace }
  | .add => { s with wg := s.wg + 1, caller := .inStart .go, trace := .wgAdd 1 :: s.trace }
  | .go => { s with listener := .printf, caller := .inStart .ret, trace := .goListener :: s.trace }
  | .ret =>
    { s with handle := s.server, caller := .started, trace := .startReturn :: .cancel :: s.trace }

/-- The value of a Go error for `%v`. -/
def GoError.text : GoError → String
  | none => "<nil>"
  | some m => m

/-- One statement of `Stop` (lines 104-126).  `now` is the clock reading and `e` the value the
server returns when the statement is a call of `Shutdown` or `Close`.  The result is `none`
when the statement cannot proceed: `Wait` with a counter that is not zero. -/
def Stop.step (s : Sys) (f : StopFrame) (now : Int) (e : GoError) : StopPc → Option Sys
  | .ctx =>
    let d := withTimeoutDeadline now timeout
    some { s with caller := .inStop .printf { f with now := now, ctx := d },
                  trace := .withTimeout now d :: s.trace }
  | .printf =>
    some { s with caller := .inStop .shutdown f,
                  trace := .printf "\nHTMLServer : Service stopping\n" [] :: s.trace }
  | .shutdown =>
    match e with
    | some m =>
      some { s with caller := .inStop .close { f with err := some m },
                    trace := .shutdown f.ctx (some m) :: s.trace }
    | none =>
      some { s with caller := .inStop .wait { f with err := none },
                    trace := .shutdown f.ctx none :: s.trace }
  | .close =>
    match e with
    | some m =>
      some { s with caller := .inStop .printErr { f with closeErr := some m },
                    trace := .close (some m) :: s.trace }
    | none =>
      some { s with caller := .inStop .wait { f with closeErr := none },
                    trace := .close none :: s.trace }
  | .printErr =>
    some { s with caller := .inStop .retErr f,
                  trace := .printf "\nHTMLServer : Service stopping : Error=%v\n"
                    [GoError.text f.closeErr] :: s.trace }
  | .retErr =>
    some { s with caller := .stopped f f.closeErr,
                  trace := .stopReturn f.closeErr :: .cancel :: s.trace }
  | .wait =>
    if s.wg = 0 then
      some { s with caller := .inStop .printStopped f, trace := .wgWait :: s.trace }
    else none
  | .printStopped =>
    some { s with caller := .inStop .retNil f,
                  trace := .printf "\nHTMLServer : Stopped\n" [] :: s.trace }
  | .retNil =>
    some { s with caller := .stopped f none, trace := .stopReturn none :: .cancel :: s.trace }

/-- The locals of `Stop` at its entry. -/
def StopFrame.entry : StopFrame := { now := 0, ctx := 0, err := none, closeErr := none }

/-- The caller calls `Stop` on the handle. -/
def Stop.call (s : Sys) : Sys :=
  { s with caller := .inStop .ctx StopFrame.entry, trace := .stopCall :: s.trace }

/-- One statement of the goroutine of lines 94-98.  `e` is what `ListenAndServe` returns when
the step is its return; line 96 discards it. -/
def Listener.step (s : Sys) (e : GoError) : Option Sys :=
  match s.listener with
  | .notStarted => none
  | .printf =>
    some { s with listener := .listen,
                  trace := .listenerPrintf "\nHTMLServer : Service started : Host=%v\n"
                    [s.cfg.Host] :: s.trace }
  | .listen => some { s with listener := .serving, trace := .listenCall :: s.trace }
  | .serving => some { s with listener := .done, trace := .listenReturn e :: s.trace }
  | .done => some { s with listener := .exited, wg := s.wg - 1, trace := .wgDone :: s.trace }
  | .exited => none

/-- Who moves next, and what the world answers. -/
inductive Input
  /-- The calling thread executes its next statement (when it is in no call: it calls `Stop`).
  `now` is the clock reading, `e` the result of the server method the statement calls. -/
  | caller (now : Int) (e : GoError)
  /-- The listener goroutine executes its next statement; `e` is the result of
  `ListenAndServe` when the step is its return. -/
  | listener (e : GoError)
deriving DecidableEq, Repr

/-- One step of the machine; `none` when the chosen thread cannot move. -/
def step (i : Input) (s : Sys) : Option Sys :=
  match i with
  | .caller now e =>
    match s.caller with
    | .inStart pc => some (Start.step s pc)
    | .started => some (Stop.call s)
    | .inStop pc f => Stop.step s f now e pc
    | .stopped _ _ => some (Stop.call s)
  | .listener e => Listener.step s e

/-- A step that leaves the state alone when the chosen thread cannot move. -/
def next (s : Sys) (i : Input) : Sys := (step i s).getD s

/-- The state after a schedule. -/
def exec (s : Sys) (sched : List Input) : Sys := sched.foldl next s

/-- The state reached from the call `Start(cfg)` by a schedule. -/
def run (cfg : Config) (sched : List Input) : Sys := exec (Sys.init cfg) sched

/-! ## `main` (lines 37-51) -/

/-- The literal `serverCfg` of lines 38-42. -/
def serverCfg : Config :=
  { Host := "localhost:8000", ReadTimeout := 5 * Second, WriteTimeout := 5 * Second }

/-- Program points of `main`: the statement to execute next. -/
inductive MainPc
  | callStart  -- line 43: Start(serverCfg) is about to be called
  | start      -- line 43: inside Start
  | deferStop  -- line 44: defer htmlServer.Stop()
  | makeChan   -- line 46
  | notify     -- line 47: signal.Notify(sigChan, os.Interrupt)
  | recv       -- line 48: <-sigChan
  | println    -- line 50
  | ret        -- line 51: main returns, the deferred call starts
  | stop       -- inside the deferred htmlServer.Stop()
  | exited     -- main has returned: the process has exited
deriving DecidableEq, Repr

/-- The process: `main`, the handle it starts, and the channel `sigChan`. -/
structure MainSys where
  pc : MainPc
  sys : Sys
  /-- Line 47 has been executed: interrupts are relayed to `sigChan`. -/
  notified : Bool
  /-- The channel `sigChan`, of capacity 1, holds a signal. -/
  pending : Bool
  /-- An interrupt arrived before line 47 had run: the runtime terminated the process. -/
  killed : Bool
deriving DecidableEq, Repr

/-- Who moves next in the process. -/
inductive MainInput
  /-- The main goroutine executes its next statement. -/
  | main (now : Int) (e : GoError)
  /-- The listener goroutine executes its next statement. -/
  | listener (e : GoError)
  /-- The operating system delivers an interrupt signal. -/
  | interrupt
deriving DecidableEq, Repr

/-- Add an event to the trace. -/
def Sys.emit (s : Sys) (e : Event) : Sys := { s with trace := e :: s.trace }

/-- The process at its start. -/
def MainSys.init : MainSys :=
  { pc := .callStart, sys := Sys.init serverCfg, notified := false, pending := false,
    killed := false }

/-- One statement of `main` (lines 37-51); `none` when `main` cannot proceed: the receive of
line 48 with an empty channel, or after `main` has returned. -/
def main.step (m : MainSys) (now : Int) (e : GoError) : Option MainSys :=
  match m.pc with
  | .callStart => some { m with pc := .start, sys := m.sys.emit .startCall }
  | .start =>
    match m.sys.caller with
    | .inStart .ret => some { m with pc := .deferStop, sys := Start.step m.sys .ret }
    | .inStart pc => some { m with sys := Start.step m.sys pc }
    | _ => none
  | .deferStop => some { m with pc := .makeChan, sys := m.sys.emit .deferStop }
  | .makeChan => some { m with pc := .notify, sys := m.sys.emit .makeChan }
  | .notify => some { m with pc := .recv, notified := true, sys := m.sys.emit .notify }
  | .recv =>
    if m.pending then
      some { m with pc := .println, pending := false, sys := m.sys.emit .sigRecv }
    else none
  | .println => some { m with pc := .ret, sys := m.sys.emit (.println "main : shutting down") }
  | .ret => some { m with pc := .stop, sys := Stop.call (m.sys.emit .mainReturn) }
  | .stop =>
    match m.sys.caller with
    | .inStop pc f =>
      (Stop.step m.sys f now e pc).map fun s =>
        { m with sys := s, pc := match s.caller with
                                 | .stopped _ _ => .exited
                                 | _ => .stop }
    | _ => none
  | .exited => none

/-- The process is running: it was not killed and `main` has not returned. -/
def MainSys.alive (m : MainSys) : Bool :=
  match m.killed, m.pc with
  | true, _ => false
  | false, .exited => false
  | false, _ => true

/-- One step of the process.  An interrupt that arrives before line 47 has run terminates the
process (the default disposition of the Go runtime); after line 47 it is put in `sigChan`. -/
def MainSys.step (i : MainInput) (m : MainSys) : Option MainSys :=
  if m.alive then
    match i with
    | .main now e => main.step m now e
    | .listener e => (Listener.step m.sys e).map fun s => { m with sys := s }
    | .interrupt =>
      if m.notified then some { m with pending := true, sys := m.sys.emit .interrupt }
      else some { m with killed := true, sys := m.sys.emit .interrupt }
  else none

/-- A step that leaves the process alone when the chosen thread cannot move. -/
def MainSys.next (m : MainSys) (i : MainInput) : MainSys := (MainSys.step i m).getD m

/-- The process after a schedule. -/
def MainSys.run (sched : List MainInput) : MainSys := sched.foldl MainSys.next MainSys.init

/-! ## Schedules and views of the trace -/

/-- The six statements of `Start`, executed by the caller without interruption. -/
def Start.schedule : List Input := List.replicate 6 (.caller 0 none)

/-- A call of `Stop` executed by the caller without interruption: the clock reads `now`,
`Shutdown` returns `sd` and `Close`, if it is called, returns `cl`. -/
def Stop.schedule (now : Int) (sd cl : GoError) : List Input :=
  [.caller now none, .caller now none, .caller now none, .caller now sd] ++
  match sd with
  | none => [.caller now none, .caller now none, .caller now none]
  | some _ =>
    .caller now cl ::
    match cl with
    | none => [.caller now none, .caller now none, .caller now none]
    | some _ => [.caller now none, .caller now none]

/-- A call of `Stop` during which other threads move: the steps `during` are taken after the
server methods have been called and before the caller goes on, to line 117 or to line 123. -/
def Stop.scheduleDuring (now : Int) (sd cl : GoError) (during : List Input) : List Input :=
  [.caller now none, .caller now none, .caller now none, .caller now sd] ++
  match sd with
  | none => during ++ [.caller now none, .caller now none, .caller now none]
  | some _ =>
    .caller now cl ::
    match cl with
    | none => during ++ [.caller now none, .caller now none, .caller now none]
    | some _ => during ++ [.caller now none, .caller now none]

/-- The listener goroutine runs from its launch to its end; `ListenAndServe` returns `e`. -/
def Listener.schedule (e : GoError) : List Input :=
  [.listener none, .listener none, .listener e, .listener none]

/-- The event belongs to the body of `Stop`. -/
def Event.ofStop : Event → Bool
  | .withTimeout _ _ => true
  | .printf _ _ => true
  | .shutdown _ _ => true
  | .close _ => true
  | .wgWait => true
  | .cancel => true
  | .stopReturn _ => true
  | _ => false

/-- The events of the body of the latest call of `Stop`, the latest first. -/
def callTrace : List Event → List Event
  | [] => []
  | .stopCall :: _ => []
  | e :: tr => if e.ofStop then e :: callTrace tr else callTrace tr

/-- The calls of `Shutdown` and `Close` in a trace. -/
def serverCalls : List Event → List Event
  | [] => []
  | .shutdown d e :: tr => .shutdown d e :: serverCalls tr
  | .close e :: tr => .close e :: serverCalls tr
  | _ :: tr => serverCalls tr

/-- The timeouts established in a trace: the clock reading and the deadline of each. -/
def timeouts : List Event → List (Int × Int)
  | [] => []
  | .withTimeout now d :: tr => (now, d) :: timeouts tr
  | _ :: tr => timeouts tr

/-- The deltas of the calls of `wg.Add` in a trace. -/
def adds : List Event → List Int
  | [] => []
  | .wgAdd d :: tr => d :: adds tr
  | _ :: tr => adds tr

/-- The results of `ListenAndServe` in a trace: one entry for each return. -/
def listenReturns : List Event → List GoError
  | [] => []
  | .listenReturn e :: tr => e :: listenReturns tr
  | _ :: tr => listenReturns tr

/-- How many goroutines a trace launches (line 94). -/
def launches : List Event → Nat
  | [] => 0
  | .goListener :: tr => launches tr + 1
  | _ :: tr => launches tr

/-- How many times a trace calls `ListenAndServe` (line 96). -/
def listenCalls : List Event → Nat
  | [] => 0
  | .listenCall :: tr => listenCalls tr + 1
  | _ :: tr => listenCalls tr

/-- How many times a trace calls `wg.Done` (line 97). -/
def dones : List Event → Nat
  | [] => 0
  | .wgDone :: tr => dones tr + 1
  | _ :: tr => dones tr

/-- How many times `wg.Wait` returns in a trace (line 123). -/
def waits : List Event → Nat
  | [] => 0
  | .wgWait :: tr => waits tr + 1
  | _ :: tr => waits tr

/-- How many times a trace calls `Stop`. -/
def stopCalls : List Event → Nat
  | [] => 0
  | .stopCall :: tr => stopCalls tr + 1
  | _ :: tr => stopCalls tr

/-- The locals of the call of `Stop` the caller is in, or has last returned from. -/
def Caller.frame : Caller → Option StopFrame
  | .inStop _ f => some f
  | .stopped f _ => some f
  | _ => none

/-- The events a call of `Stop` has produced when it reaches line 123, the latest first. -/
def Stop.historyAtWait (f : StopFrame) : List Event :=
  match f.err with
  | none =>
    [.shutdown f.ctx none, .printf "\nHTMLServer : Service stopping\n" [],
     .withTimeout f.now f.ctx]
  | some m =>
    [.close none, .shutdown f.ctx (some m), .printf "\nHTMLServer : Service stopping\n" [],
     .withTimeout f.now f.ctx]

/-- The events a call of `Stop` has produced when it stands at a program point, the latest
first. -/
def Stop.history (f : StopFrame) : StopPc → List Event
  | .ctx => []
  | .printf => [.withTimeout f.now f.ctx]
  | .shutdown => [.printf "\nHTMLServer : Service stopping\n" [], .withTimeout f.now f.ctx]
  | .close =>
    [.shutdown f.ctx f.err, .printf "\nHTMLServer : Service stopping\n" [],
     .withTimeout f.now f.ctx]
  | .printErr =>
    [.close f.closeErr, .shutdown f.ctx f.err, .printf "\nHTMLServer : Service stopping\n" [],
     .withTimeout f.now f.ctx]
  | .retErr =>
    [.printf "\nHTMLServer : Service stopping : Error=%v\n" [GoError.text f.closeErr],
     .close f.closeErr, .shutdown f.ctx f.err,
     .printf "\nHTMLServer : Service stopping\n" [], .withTimeout f.now f.ctx]
  | .wait => Stop.historyAtWait f
  | .printStopped => .wgWait :: Stop.historyAtWait f
  | .retNil => .printf "\nHTMLServer : Stopped\n" [] :: .wgWait :: Stop.historyAtWait f

/-- The events of the latest call of `Stop` as the caller's state determines them. -/
def Caller.history : Caller → List Event
  | .inStop pc f => Stop.history f pc
  | .stopped f (some m) => .stopReturn (some m) :: .cancel :: Stop.history f .retErr
  | .stopped f none => .stopReturn none :: .cancel :: Stop.history f .retNil
  | _ => []

/-- `Start` has executed line 80. -/
def Caller.built : Caller → Bool
  | .inStart .ctx => false
  | .inStart .router => false
  | .inStart .server => false
  | _ => true

/-- `Start` has executed line 91. -/
def Caller.added : Caller → Bool
  | .inStart .ctx => false
  | .inStart .router => false
  | .inStart .server => false
  | .inStart .add => false
  | _ => true

/-- `Start` has executed line 94. -/
def Caller.launched : Caller → Bool
  | .inStart .ret => true
  | .inStart _ => false
  | _ => true

/-- `Start` has returned. -/
def Caller.returned : Caller → Bool
  | .inStart _ => false
  | _ => true

/-- `Configuration` as section 3 of the specification describes it: a record of four fields,
`maxHeaderBytes` among them. -/
structure Configuration where
  bindAddress : String
  readTimeout : Int
  writeTimeout : Int
  maxHeaderBytes : Int
deriving DecidableEq, Repr

/-- The `Config` of the source that carries the settings of a `Configuration`.  `Config` has
three fields; it has none for `maxHeaderBytes`. -/
def Configuration.toConfig (c : Configuration) : Config :=
  { Host := c.bindAddress, ReadTimeout := c.readTimeout, WriteTimeout := c.writeTimeout }

/-- How far the listener goroutine has come. -/
def Listener.stage : Listener → Nat
  | .notStarted => 0
  | .printf => 1
  | .listen => 2
  | .serving => 3
  | .done => 4
  | .exited => 5

/-- The counter of the `WaitGroup` as the two threads determine it: one unit is outstanding
from line 91 until the listener goroutine has executed line 97. -/
def expectedWg (c : Caller) (l : Listener) : Int :=
  if c.added = true ∧ l.stage < 5 then 1 else 0

/-- What holds of the counter, the listener goroutine and their events in every state. -/
structure CounterInv (s : Sys) : Prop where
  wg_eq : s.wg = expectedWg s.caller s.listener
  launched : 1 ≤ s.listener.stage ↔ s.caller.launched = true
  adds_eq : adds s.trace = if s.caller.added = true then [1] else []
  go_count : launches s.trace = if 1 ≤ s.listener.stage then 1 else 0
  call_count : listenCalls s.trace = if 3 ≤ s.listener.stage then 1 else 0
  return_count : (listenReturns s.trace).length = if 4 ≤ s.listener.stage then 1 else 0
  done_count : dones s.trace = if 5 ≤ s.listener.stage then 1 else 0

/-- What holds of the locals of `Stop` at each program point. -/
def Stop.frameInv (f : StopFrame) : StopPc → Prop
  | .ctx => f.closeErr = none
  | .printf => f.ctx = f.now + timeout ∧ f.closeErr = none
  | .shutdown => f.ctx = f.now + timeout ∧ f.closeErr = none
  | .close => f.ctx = f.now + timeout ∧ f.err ≠ none ∧ f.closeErr = none
  | .printErr => f.ctx = f.now + timeout ∧ f.err ≠ none ∧ f.closeErr ≠ none
  | .retErr => f.ctx = f.now + timeout ∧ f.err ≠ none ∧ f.closeErr ≠ none
  | .wait => f.ctx = f.now + timeout ∧ f.closeErr = none
  | .printStopped => f.ctx = f.now + timeout ∧ f.closeErr = none
  | .retNil => f.ctx = f.now + timeout ∧ f.closeErr = none

/-- What holds of the locals of the call of `Stop` the caller is in or has returned from. -/
def Caller.frameInv : Caller → Prop
  | .inStop pc f => Stop.frameInv f pc
  | .stopped f r => f.ctx = f.now + timeout ∧ r = f.closeErr ∧ (f.closeErr ≠ none → f.err ≠ none)
  | _ => True

/-- The current call of `Stop` has got past line 123. -/
def Caller.waited : Caller → Bool
  | .inStop .printStopped _ => true
  | .inStop .retNil _ => true
  | .stopped _ none => true
  | _ => false

/-- What holds of a call of `Stop` in every state. -/
structure CallInv (s : Sys) : Prop where
  frame : s.caller.frameInv
  waited : s.caller.waited = true → s.listener = .exited
  trace : s.caller.frame ≠ none → callTrace s.trace = s.caller.history

/-- What holds of the server and of the handle in every state reached from `Start(cfg)`. -/
structure ServerInv (cfg : Config) (s : Sys) : Prop where
  cfg_eq : s.cfg = cfg
  server_eq : s.server = if s.caller.built = true then some (newServer cfg) else none
  handle_eq : s.handle = if s.caller.returned = true then some (newServer cfg) else none

/-- How many steps of the calling thread a schedule holds. -/
def callerSteps : List Input → Nat
  | [] => 0
  | .caller _ _ :: rest => callerSteps rest + 1
  | .listener _ :: rest => callerSteps rest

/-- How many statements of `Start` are left to execute at a program point. -/
def StartPc.remaining : StartPc → Nat
  | .ctx => 6
  | .router => 5
  | .server => 4
  | .add => 3
  | .go => 2
  | .ret => 1

/-- The event is a statement of `main`, or the call or return of `Start`, or the call of
`Stop`. -/
def Event.ofMain : Event → Bool
  | .startCall => true
  | .startReturn => true
  | .deferStop => true
  | .makeChan => true
  | .notify => true
  | .sigRecv => true
  | .println _ => true
  | .mainReturn => true
  | .stopCall => true
  | _ => false

/-- The lifecycle events of a trace, the latest first. -/
def mainEvents : List Event → List Event
  | [] => []
  | e :: tr => if e.ofMain then e :: mainEvents tr else mainEvents tr

/-- How many interrupts the operating system has delivered in a trace. -/
def interrupts : List Event → Nat
  | [] => 0
  | .interrupt :: tr => interrupts tr + 1
  | _ :: tr => interrupts tr

/-- The lifecycle events of a complete run of `main`, the latest first: lines 43, 44, 46, 47,
48, 50, the return of `main` and the deferred call of `Stop`. -/
def mainScript : List Event :=
  [.stopCall, .mainReturn, .println "main : shutting down", .sigRecv, .notify, .makeChan,
   .deferStop, .startReturn, .startCall]

/-- How many lifecycle events `main` has produced when it stands at a program point. -/
def MainPc.progress : MainPc → Nat
  | .callStart => 0
  | .start => 1
  | .deferStop => 2
  | .makeChan => 3
  | .notify => 4
  | .recv => 5
  | .println => 6
  | .ret => 7
  | .stop => 9
  | .exited => 9

/-- The state of the caller that goes with a program point of `main`. -/
def MainPc.callerOk : MainPc → Caller → Prop
  | .callStart, c => c = .inStart .ctx
  | .start, c => ∃ pc, c = .inStart pc
  | .stop, c => ∃ pc f, c = .inStop pc f
  | .exited, c => ∃ f r, c = .stopped f r
  | _, c => c = .started

/-- What holds of the process in every state. -/
structure MainInv (m : MainSys) : Prop where
  script : mainEvents m.sys.trace = mainScript.drop (9 - m.pc.progress)
  caller : m.pc.callerOk m.sys.caller
  notified : m.notified = decide (5 ≤ m.pc.progress)
  pending : m.pending = true → 1 ≤ interrupts m.sys.trace
  received : 6 ≤ m.pc.progress → 1 ≤ interrupts m.sys.trace
  calls : m.pc.progress ≤ 7 → serverCalls m.sys.trace = []
  inCall : 9 ≤ m.pc.progress → serverCalls m.sys.trace = serverCalls (callTrace m.sys.trace)

end LOLPal

namespace LOLPal

set_option linter.unusedTactic false
set_option linter.unreachableTactic false
set_option linter.unnecessarySimpa false

/-! ## Invariants of the counter and of the server -/

theorem exec_induction (P : Sys → Prop) (hstep : ∀ s i s2, P s → step i s = some s2 → P s2)
    (sched : List Input) : ∀ s, P s → P (exec s sched) := by
  induction sched with
  | nil => intro s h; exact h
  | cons i rest ih =>
    intro s h
    show P (exec (next s i) rest)
    apply ih
    unfold next
    cases hs : step i s with
    | none => exact h
    | some s2 => exact hstep s i s2 h hs

theorem counterInv_init (cfg : Config) : CounterInv (Sys.init cfg) := by
  constructor <;>
    simp [Sys.init, expectedWg, Caller.added, Caller.launched, Listener.stage, adds,
      listenReturns, launches, listenCalls, dones]

set_option maxHeartbeats 4000000 in
theorem counterInv_step (s : Sys) (i : Input) (s2 : Sys) (h : CounterInv s)
    (hs : step i s = some s2) : CounterInv s2 := by
  obtain ⟨cfg, server, wg, handle, caller, listener, trace⟩ := s
  obtain ⟨h1, h2, h3, h4, h5, h6, h7⟩ := h
  simp only at h1 h2 h3 h4 h5 h6 h7
  cases i with
  | caller now e =>
    cases caller with
    | inStart pc =>
      cases pc <;> simp only [step, Start.step] at hs <;> injection hs with hs <;> subst hs <;>
        constructor
      all_goals
        first
          | assumption
          | simpa [expectedWg, Caller.added, Caller.launched, Listener.stage, adds,
            listenReturns, launches, listenCalls, dones] using h1
          | simpa [expectedWg, Caller.added, Caller.launched, Listener.stage, adds,
            listenReturns, launches, listenCalls, dones] using h2
          | simpa [expectedWg, Caller.added, Caller.launched, Listener.stage, adds,
            listenReturns, launches, listenCalls, dones] using h3
          | simpa [expectedWg, Caller.added, Caller.launched, Listener.stage, adds,
            listenReturns, launches, listenCalls, dones] using h4
          | simpa [expectedWg, Caller.added, Caller.launched, Listener.stage, adds,
            listenReturns, launches, listenCalls, dones] using h5
          | simpa [expectedWg, Caller.added, Caller.launched, Listener.stage, adds,
            listenReturns, launches, listenCalls, dones] using h6
          | simpa [expectedWg, Caller.added, Caller.launched, Listener.stage, adds,
            listenReturns, launches, listenCalls, dones] using h7
          | (cases listener <;> simp_all [expectedWg, Caller.added, Caller.launched, Listener.stage, adds,
            listenReturns, launches, listenCalls, dones])
    | started =>
      simp only [step, Stop.call] at hs
      injection hs with hs
      subst hs
      constructor
      · first
          | simpa [expectedWg, Caller.added, Caller.launched, Listener.stage, adds,
            listenReturns, launches, listenCalls, dones] using h1
          | (cases listener <;> simp_all [expectedWg, Caller.added, Caller.launched, Listener.stage, adds,
            listenReturns, launches, listenCalls, dones])
      · first
          | simpa [expectedWg, Caller.added, Caller.launched, Listener.stage, adds,
            listenReturns, launches, listenCalls, dones] using h2
          | (cases listener <;> simp_all [expectedWg, Caller.added, Caller.launched, Listener.stage, adds,
            listenReturns, launches, listenCalls, dones])
      · first
          | simpa [expectedWg, Caller.added, Caller.launched, Listener.stage, adds,
            listenReturns, launches, listenCalls, dones] using h3
          | (cases listener <;> simp_all [expectedWg, Caller.added, Caller.launched, Listener.stage, adds,
            listenReturns, launches, listenCalls, dones])
      · first
          | simpa [expectedWg, Caller.added, Caller.launched, Listener.stage, adds,
            listenReturns, launches, listenCalls, dones] using h4
          | (cases listener <;> simp_all [expectedWg, Caller.added, Caller.launched, Listener.stage, adds,
            listenReturns, launches, listenCalls, dones])
      · first
          | simpa [expectedWg, Caller.added, Caller.launched, Listener.stage, adds,
            listenReturns, launches, listenCalls, dones] using h5
          | (cases listener <;> simp_all [expectedWg, Caller.added, Caller.launched, Listener.stage, adds,
            listenReturns, launches, listenCalls, dones])
      · first
          | simpa [expectedWg, Caller.added, Caller.launched, Listener.stage, adds,
            listenReturns, launches, listenCalls, dones] using h6
          | (cases listener <;> simp_all [expectedWg, Caller.added, Caller.launched, Listener.stage, adds,
            listenReturns, launches, listenCalls, dones])
      · first
          | simpa [expectedWg, Caller.added, Caller.launched, Listener.stage, adds,
            listenReturns, launches, listenCalls, dones] using h7
          | (cases listener <;> simp_all [expectedWg, Caller.added, Caller.launched, Listener.stage, adds,
            listenReturns, launches, listenCalls, dones])
    | stopped f r =>
      simp only [step, Stop.call] at hs
      injection hs with hs
      subst hs
      constructor
      · first
          | simpa [expectedWg, Caller.added, Caller.launched, Listener.stage, adds,
            listenReturns, launches, listenCalls, dones] using h1
          | (cases listener <;> simp_all [expectedWg, Caller.added, Caller.launched, Listener.stage, adds,
            listenReturns, launches, listenCalls, dones])
      · first
          | simpa [expectedWg, Caller.added, Caller.launched, Listener.stage, adds,
            listenReturns, launches, listenCalls, dones] using h2
          | (cases listener <;> simp_all [expectedWg, Caller.added, Caller.launched, Listener.stage, adds,
            listenReturns, launches, listenCalls, dones])
      · first
          | simpa [expectedWg, Caller.added, Caller.launched, Listener.stage, adds,
            listenReturns, launches, listenCalls, dones] using h3
          | (cases listener <;> simp_all [expectedWg, Caller.added, Caller.launched, Listener.stage, adds,
            listenReturns, launches, listenCalls, dones])
      · first
          | simpa [expectedWg, Caller.added, Caller.launched, Listener.stage, adds,
            listenReturns, launches, listenCalls, dones] using h4
          | (cases listener <;> simp_all [expectedWg, Caller.added, Caller.launched, Listener.stage, adds,
            listenReturns, launches, listenCalls, dones])
      · first
          | simpa [expectedWg, Caller.added, Caller.launched, Listener.stage, adds,
            listenReturns, launches, listenCalls, dones] using h5
          | (cases listener <;> simp_all [expectedWg, Caller.added, Caller.launched, Listener.stage, adds,
            listenReturns, launches, listenCalls, dones])
      · first
          | simpa [expectedWg, Caller.added, Caller.launched, Listener.stage, adds,
            listenReturns, launches, listenCalls, dones] using h6
          | (cases listener <;> simp_all [expectedWg, Caller.added, Caller.launched, Listener.stage, adds,
            listenReturns, launches, listenCalls, dones])
      · first
          | simpa [expectedWg, Caller.added, Caller.launched, Listener.stage, adds,
            listenReturns, launches, listenCalls, dones] using h7
          | (cases listener <;> simp_all [expectedWg, Caller.added, Caller.launched, Listener.stage, adds,
            listenReturns, launches, listenCalls, dones])
    | inStop pc f =>
      have hs2 : s2.wg = wg ∧ s2.listener = listener ∧ s2.caller.added = true ∧
          s2.caller.launched = true ∧ adds s2.trace = adds trace ∧
          launches s2.trace = launches trace ∧ listenCalls s2.trace = listenCalls trace ∧
          listenReturns s2.trace = listenReturns trace ∧ dones s2.trace = dones trace := by
        cases pc <;> cases e <;> simp only [step, Stop.step] at hs <;> (try split at hs) <;>
          first
            | contradiction
            | (injection hs with hs
               subst hs
               simp [adds, listenReturns, launches, listenCalls, dones, Caller.added,
                 Caller.launched])
      obtain ⟨e1, e2, ha, hl, e4, e5, e6, e7, e8⟩ := hs2
      have ha0 : (Caller.inStop pc f).added = true := rfl
      have hl0 : (Caller.inStop pc f).launched = true := rfl
      unfold expectedWg at h1
      rw [ha0] at h1 h3
      rw [hl0] at h2
      constructor
      · rw [e1, e2, h1]; unfold expectedWg; rw [ha]
      · rw [e2, hl]; exact h2
      · rw [e4, ha]; exact h3
      · rw [e5, e2]; exact h4
      · rw [e6, e2]; exact h5
      · rw [e7, e2]; exact h6
      · rw [e8, e2]; exact h7
  | listener e =>
    have hal : caller.launched = true → caller.added = true := by
      cases caller with
      | inStart pc => cases pc <;> simp [Caller.launched, Caller.added]
      | started => intro _; rfl
      | inStop pc f => intro _; rfl
      | stopped f r => intro _; rfl
    cases listener <;> simp only [step, Listener.step] at hs <;>
      first
        | contradiction
        | (injection hs with hs
           subst hs
           constructor <;>
           simp_all [expectedWg, Listener.stage, adds, listenReturns, launches, listenCalls, dones])

theorem counterInv_run (cfg : Config) (sched : List Input) : CounterInv (run cfg sched) :=
  exec_induction CounterInv counterInv_step sched _ (counterInv_init cfg)

theorem serverInv_step (cfg0 : Config) (s : Sys) (i : Input) (s2 : Sys) (h : ServerInv cfg0 s)
    (hs : step i s = some s2) : ServerInv cfg0 s2 := by
  obtain ⟨cfg, server, wg, handle, caller, listener, trace⟩ := s
  obtain ⟨h1, h2, h3⟩ := h
  simp only at h1 h2 h3
  cases i with
  | caller now e =>
    cases caller with
    | inStart pc =>
      cases pc <;> simp only [step, Start.step] at hs <;> injection hs with hs <;> subst hs <;>
        constructor <;> simp_all [Caller.built, Caller.returned]
    | started =>
      simp only [step, Stop.call] at hs
      injection hs with hs
      subst hs
      constructor <;> simp_all [Caller.built, Caller.returned]
    | stopped f r =>
      simp only [step, Stop.call] at hs
      injection hs with hs
      subst hs
      constructor <;> simp_all [Caller.built, Caller.returned]
    | inStop pc f =>
      cases pc <;> cases e <;> simp only [step, Stop.step] at hs <;> (try split at hs) <;>
        first
          | contradiction
          | (injection hs with hs
             subst hs
             constructor <;> simp_all [Caller.built, Caller.returned])
  | listener e =>
    cases listener <;> simp only [step, Listener.step] at hs <;>
      first
        | contradiction
        | (injection hs with hs
           subst hs
           constructor <;> simp_all)

theorem serverInv_run (cfg : Config) (sched : List Input) : ServerInv cfg (run cfg sched) :=
  exec_induction (ServerInv cfg) (serverInv_step cfg) sched _
    (by constructor <;> simp [Sys.init, Caller.built, Caller.returned])

/-! ## Invariants of a call of `Stop` -/

theorem callTrace_skip (e : Event) (tr : List Event) (h1 : e ≠ .stopCall)
    (h2 : e.ofStop = false) : callTrace (e :: tr) = callTrace tr := by
  cases e <;> simp_all [callTrace, Event.ofStop]

set_option maxHeartbeats 2000000 in
theorem callInv_step (s : Sys) (i : Input) (s2 : Sys) (hc : CounterInv s) (h : CallInv s)
    (hs : step i s = some s2) : CallInv s2 := by
  obtain ⟨cfg, server, wg, handle, caller, listener, trace⟩ := s
  obtain ⟨h1, h2, h3⟩ := h
  have hw := hc.wg_eq
  simp only at h1 h2 h3 hw
  cases i with
  | caller now e =>
    cases caller with
    | inStart pc =>
      cases pc <;> simp only [step, Start.step] at hs <;> injection hs with hs <;> subst hs <;>
        constructor <;> simp [Caller.frameInv, Caller.waited, Caller.frame]
    | started =>
      simp only [step, Stop.call] at hs
      injection hs with hs
      subst hs
      constructor <;>
        simp [Caller.frameInv, Caller.waited, Caller.frame, Stop.frameInv, StopFrame.entry,
          callTrace, Caller.history, Stop.history]
    | stopped f r =>
      simp only [step, Stop.call] at hs
      injection hs with hs
      subst hs
      constructor <;>
        simp [Caller.frameInv, Caller.waited, Caller.frame, Stop.frameInv, StopFrame.entry,
          callTrace, Caller.history, Stop.history]
    | inStop pc f =>
      obtain ⟨fnow, fctx, ferr, fclose⟩ := f
      cases pc <;> cases e <;> simp only [step, Stop.step] at hs <;> (try split at hs) <;>
        first
          | contradiction
          | (injection hs with hs
             subst hs
             cases listener <;> cases ferr <;> cases fclose <;>
             simp_all [Caller.frameInv, Caller.waited, Caller.frame, Stop.frameInv,
               callTrace, Caller.history, Stop.history, Stop.historyAtWait, Event.ofStop,
               withTimeoutDeadline, expectedWg, Caller.added, Listener.stage] <;>
             constructor <;>
             simp_all [Caller.frameInv, Caller.waited, Caller.frame, Stop.frameInv,
               callTrace, Caller.history, Stop.history, Stop.historyAtWait, Event.ofStop,
               withTimeoutDeadline, expectedWg, Caller.added, Listener.stage])
  | listener e =>
    cases listener <;> simp only [step, Listener.step] at hs <;>
      first
        | contradiction
        | (injection hs with hs
           subst hs
           constructor
           · exact h1
           · intro hwt
             have := h2 hwt
             simp at this
           · intro hf
             rw [callTrace_skip _ _ (by simp) (by simp [Event.ofStop])]
             exact h3 hf)

theorem counter_call_run (cfg : Config) (sched : List Input) :
    CounterInv (run cfg sched) ∧ CallInv (run cfg sched) :=
  exec_induction (fun s => CounterInv s ∧ CallInv s)
    (fun s i s2 h hs => ⟨counterInv_step s i s2 h.1 hs, callInv_step s i s2 h.1 h.2 hs⟩) sched _
    ⟨counterInv_init cfg, by
      constructor <;> simp [Sys.init, Caller.frameInv, Caller.waited, Caller.frame]⟩

theorem callInv_run (cfg : Config) (sched : List Input) : CallInv (run cfg sched) :=
  (counter_call_run cfg sched).2

/-! ## `Stop`: its result and the wait -/

theorem timeout_eq : timeout = 5000000000 := by
  simp [timeout, Second]

/-- C1: in every state in which a call of `Stop` has returned `r`, with `err` the value
`Shutdown` returned and `closeErr` the value `Close` returned (`nil` when it was not called),
`r` is not `nil` exactly when both are errors, `r` is the value of `Close` and never that of
`Shutdown`, and the server methods called were `Shutdown` alone when it returned `nil`, and
`Shutdown` then `Close` otherwise.  And `Stop` does return: a call in which `Shutdown` returns
`sd` and `Close` returns `cl` returns `nil` if `sd` is `nil`, and `cl` otherwise, so a failed
shutdown followed by a successful close is a success; this is shown for a listener goroutine
that has ended before the call, and for one that is inside `ListenAndServe` when `Stop` is
called and leaves it, with any result, once the server methods have been called. -/
theorem stop_returns_close_error (cfg : Config) :
    (∀ sched f r, (run cfg sched).caller = .stopped f r →
      (r ≠ none ↔ f.err ≠ none ∧ f.closeErr ≠ none) ∧ r = f.closeErr ∧
      (serverCalls (callTrace (run cfg sched).trace)).reverse =
        match f.err with
        | none => [.shutdown f.ctx none]
        | some m => [.shutdown f.ctx (some m), .close f.closeErr]) ∧
    (∀ now sd cl le,
      (run cfg (Start.schedule ++ Listener.schedule le ++ Stop.schedule now sd cl)).caller =
        .stopped ⟨now, now + 5000000000, sd, sd.bind fun _ => cl⟩ (sd.bind fun _ => cl)) ∧
    (∀ now sd cl le,
      (run cfg (Start.schedule ++ [.listener none, .listener none] ++
        Stop.scheduleDuring now sd cl [.listener le, .listener none])).caller =
        .stopped ⟨now, now + 5000000000, sd, sd.bind fun _ => cl⟩ (sd.bind fun _ => cl)) := by
  refine ⟨?_, ?_, ?_⟩
  · intro sched f r h
    have hi := callInv_run cfg sched
    have h1 := hi.frame
    have h3 := hi.trace
    rw [h] at h1 h3
    obtain ⟨fnow, fctx, ferr, fclose⟩ := f
    simp only [Caller.frameInv] at h1
    obtain ⟨_, hr, hce⟩ := h1
    subst hr
    have h3 := h3 (by simp [Caller.frame])
    rw [h3]
    cases ferr <;> cases r <;>
      simp_all [Caller.history, Stop.history, Stop.historyAtWait, serverCalls]
  · intro now sd cl le
    cases sd <;> cases cl <;> rfl
  · intro now sd cl le
    cases sd <;> cases cl <;> rfl

theorem stopped_nil_waited (cfg : Config) (sched : List Input) (f : StopFrame)
    (h : (run cfg sched).caller = .stopped f none) :
    (run cfg sched).listener = .exited ∧ (run cfg sched).wg = 0 ∧
    dones (run cfg sched).trace = 1 := by
  have hi := callInv_run cfg sched
  have hc := counterInv_run cfg sched
  have h2 := hi.waited
  have hw := hc.wg_eq
  have hd := hc.done_count
  rw [h] at h2 hw
  have hl := h2 rfl
  rw [hl] at hw hd
  refine ⟨hl, ?_, ?_⟩
  · rw [hw]; simp [expectedWg, Listener.stage]
  · rw [hd]; simp [Listener.stage]

/-- C2, the counterexample: `Shutdown` and `Close` both fail while the listener goroutine is
inside `ListenAndServe`; `Stop` returns the error of `Close`, `wg.Wait` was not called, the
counter is 1 and `wg.Done` has not run. -/
theorem stop_returns_without_waiting :
    (run serverCfg (Start.schedule ++ [.listener none, .listener none] ++
        Stop.schedule 0 (some "context deadline exceeded") (some "close failed"))).caller =
      .stopped ⟨0, 5000000000, some "context deadline exceeded", some "close failed"⟩
        (some "close failed") ∧
    (run serverCfg (Start.schedule ++ [.listener none, .listener none] ++
        Stop.schedule 0 (some "context deadline exceeded") (some "close failed"))).listener =
      .serving ∧
    (run serverCfg (Start.schedule ++ [.listener none, .listener none] ++
        Stop.schedule 0 (some "context deadline exceeded") (some "close failed"))).wg = 1 ∧
    waits (run serverCfg (Start.schedule ++ [.listener none, .listener none] ++
        Stop.schedule 0 (some "context deadline exceeded") (some "close failed"))).trace = 0 ∧
    dones (run serverCfg (Start.schedule ++ [.listener none, .listener none] ++
        Stop.schedule 0 (some "context deadline exceeded") (some "close failed"))).trace = 0 :=
  ⟨rfl, rfl, rfl, rfl, rfl⟩

/-- C2, amended: a call of `Stop` that has returned `nil` got past `wg.Wait` exactly once,
the listener goroutine has ended, `wg.Done` has run and the counter is 0; a call that has
returned an error (the error of `Close`) did not call `wg.Wait`. -/
theorem stop_waits_unless_close_fails (cfg : Config) (sched : List Input) (f : StopFrame)
    (r : GoError) (h : (run cfg sched).caller = .stopped f r) :
    (r = none → (run cfg sched).listener = .exited ∧ (run cfg sched).wg = 0 ∧
      dones (run cfg sched).trace = 1 ∧ waits (callTrace (run cfg sched).trace) = 1) ∧
    (r ≠ none → r = f.closeErr ∧ f.err ≠ none ∧
      waits (callTrace (run cfg sched).trace) = 0) := by
  have hi := callInv_run cfg sched
  have h1 := hi.frame
  have h3 := hi.trace
  rw [h] at h1 h3
  obtain ⟨fnow, fctx, ferr, fclose⟩ := f
  simp only [Caller.frameInv] at h1
  obtain ⟨_, hr, hce⟩ := h1
  subst hr
  have h3 := h3 (by simp [Caller.frame])
  rw [h3]
  constructor
  · intro hn
    subst hn
    obtain ⟨hl, hw, hd⟩ := stopped_nil_waited cfg sched _ h
    refine ⟨hl, hw, hd, ?_⟩
    cases ferr <;> simp [Caller.history, Stop.history, Stop.historyAtWait, waits]
  · intro hn
    cases r with
    | none => exact absurd rfl hn
    | some m =>
      refine ⟨rfl, hce (by simp), ?_⟩
      simp [Caller.history, Stop.history, waits]

/-- C2, amended, at a concrete run: the listener ends on a failed bind and `Stop`, whose
`Shutdown` succeeds, returns `nil` after the wait. -/
theorem stop_waits_unless_close_fails_witness :
    (none = (none : GoError) →
      (run serverCfg (Start.schedule ++ Listener.schedule (some "bind") ++
        Stop.schedule 0 none none)).listener = .exited ∧
      (run serverCfg (Start.schedule ++ Listener.schedule (some "bind") ++
        Stop.schedule 0 none none)).wg = 0 ∧
      dones (run serverCfg (Start.schedule ++ Listener.schedule (some "bind") ++
        Stop.schedule 0 none none)).trace = 1 ∧
      waits (callTrace (run serverCfg (Start.schedule ++ Listener.schedule (some "bind") ++
        Stop.schedule 0 none none)).trace) = 1) ∧
    ((none : GoError) ≠ none → (none : GoError) = none ∧ (none : GoError) ≠ none ∧
      waits (callTrace (run serverCfg (Start.schedule ++ Listener.schedule (some "bind") ++
        Stop.schedule 0 none none)).trace) = 0) :=
  stop_waits_unless_close_fails serverCfg
    (Start.schedule ++ Listener.schedule (some "bind") ++ Stop.schedule 0 none none)
    ⟨0, 5000000000, none, none⟩ none rfl

/-! ## `Stop`: the server calls and the deadline -/

/-- C5: in a call of `Stop` that has returned, or that stands at `wg.Wait`, the calls of
server methods, in the order in which they were made, are `Shutdown(ctx)` alone when it
returned `nil`, and `Shutdown(ctx)` followed by one `Close` when it returned an error, whatever
the error is. -/
theorem close_iff_shutdown_failed (cfg : Config) (sched : List Input) (f : StopFrame)
    (h : (∃ r, (run cfg sched).caller = .stopped f r) ∨
      (run cfg sched).caller = .inStop .wait f) :
    (serverCalls (callTrace (run cfg sched).trace)).reverse =
      match f.err with
      | none => [.shutdown f.ctx none]
      | some m => [.shutdown f.ctx (some m), .close f.closeErr] := by
  have hi := callInv_run cfg sched
  have h1 := hi.frame
  have h3 := hi.trace
  obtain ⟨fnow, fctx, ferr, fclose⟩ := f
  rcases h with ⟨r, h⟩ | h
  · rw [h] at h1 h3
    simp only [Caller.frameInv] at h1
    obtain ⟨_, hr, hce⟩ := h1
    have h3 := h3 (by simp [Caller.frame])
    rw [h3]
    cases ferr <;> cases fclose <;> cases r <;>
      simp_all [Caller.history, Stop.history, Stop.historyAtWait, serverCalls]
  · rw [h] at h1 h3
    simp only [Caller.frameInv, Stop.frameInv] at h1
    have h3 := h3 (by simp [Caller.frame])
    rw [h3]
    cases ferr <;> cases fclose <;>
      simp_all [Caller.history, Stop.history, Stop.historyAtWait, serverCalls]

/-- C5 at a concrete run: `Shutdown` fails with an error that is not a timeout, `Close`
succeeds, and `Stop` returns after the listener has ended. -/
theorem close_iff_shutdown_failed_witness :
    (serverCalls (callTrace (run serverCfg (Start.schedule ++ Listener.schedule none ++
      Stop.schedule 3 (some "listener close failed") none)).trace)).reverse =
      [.shutdown 5000000003 (some "listener close failed"), .close none] :=
  close_iff_shutdown_failed serverCfg
    (Start.schedule ++ Listener.schedule none ++
      Stop.schedule 3 (some "listener close failed") none)
    ⟨3, 5000000003, some "listener close failed", none⟩ (Or.inl ⟨none, rfl⟩)

/-- C6: once a call of `Stop` has executed line 107, where the clock read `now`, the call has
established exactly one timeout, its deadline is `now + 5000000000` nanoseconds whatever the
`Config` is, and every `Shutdown` of the call was given that deadline. -/
theorem stop_deadline_is_five_seconds (cfg : Config) (sched : List Input) (f : StopFrame)
    (h : (∃ r, (run cfg sched).caller = .stopped f r) ∨
      (∃ pc, pc ≠ StopPc.ctx ∧ (run cfg sched).caller = .inStop pc f)) :
    f.ctx = f.now + 5000000000 ∧
    timeouts (callTrace (run cfg sched).trace) = [(f.now, f.now + 5000000000)] ∧
    ∀ d e, Event.shutdown d e ∈ callTrace (run cfg sched).trace → d = f.now + 5000000000 := by
  have hi := callInv_run cfg sched
  have h1 := hi.frame
  have h3 := hi.trace
  have ht := timeout_eq
  obtain ⟨fnow, fctx, ferr, fclose⟩ := f
  rcases h with ⟨r, h⟩ | ⟨pc, hpc, h⟩
  · rw [h] at h1 h3
    simp only [Caller.frameInv] at h1
    obtain ⟨hx, hr, hce⟩ := h1
    have h3 := h3 (by simp [Caller.frame])
    rw [h3]
    rw [ht] at hx
    subst hx
    cases ferr <;> cases fclose <;> cases r <;>
      simp_all [Caller.history, Stop.history, Stop.historyAtWait, timeouts]
  · rw [h] at h1 h3
    have h3 := h3 (by simp [Caller.frame])
    rw [h3]
    cases pc <;> simp only [Caller.frameInv, Stop.frameInv] at h1 <;>
      first
        | exact absurd rfl hpc
        | (obtain ⟨hx, hrest⟩ := h1
           rw [ht] at hx
           subst hx
           cases ferr <;> cases fclose <;>
             simp_all [Caller.history, Stop.history, Stop.historyAtWait, timeouts])

/-- C6 at a concrete run: a call of `Stop` at clock reading 7, under a `Config` whose
timeouts are 1 and 2 nanoseconds. -/
theorem stop_deadline_is_five_seconds_witness :
    (5000000007 : Int) = 7 + 5000000000 ∧
    timeouts (callTrace (run ⟨"127.0.0.1:0", 1, 2⟩ (Start.schedule ++ Listener.schedule none ++
      Stop.schedule 7 none none)).trace) = [(7, 7 + 5000000000)] ∧
    ∀ d e, Event.shutdown d e ∈ callTrace (run ⟨"127.0.0.1:0", 1, 2⟩
      (Start.schedule ++ Listener.schedule none ++ Stop.schedule 7 none none)).trace →
      d = 7 + 5000000000 :=
  stop_deadline_is_five_seconds ⟨"127.0.0.1:0", 1, 2⟩
    (Start.schedule ++ Listener.schedule none ++ Stop.schedule 7 none none)
    ⟨7, 5000000007, none, none⟩ (Or.inl ⟨none, rfl⟩)

/-! ## `Start` -/

theorem run_append (cfg : Config) (a b : List Input) :
    run cfg (a ++ b) = exec (run cfg a) b := by
  simp [run, exec, List.foldl_append]

theorem returned_stable (sched : List Input) :
    ∀ s : Sys, s.caller.returned = true → (exec s sched).caller.returned = true := by
  apply exec_induction (fun s => s.caller.returned = true)
  intro s i s2 h hs
  obtain ⟨cfg, server, wg, handle, caller, listener, trace⟩ := s
  cases i with
  | caller now e =>
    cases caller with
    | inStart pc => simp [Caller.returned] at h
    | started =>
      simp only [step, Stop.call] at hs
      injection hs with hs
      subst hs
      rfl
    | stopped f r =>
      simp only [step, Stop.call] at hs
      injection hs with hs
      subst hs
      rfl
    | inStop pc f =>
      cases pc <;> cases e <;> simp only [step, Stop.step] at hs <;> (try split at hs) <;>
        first
          | contradiction
          | (injection hs with hs
             subst hs
             rfl)
  | listener e =>
    cases listener <;> simp only [step, Listener.step] at hs <;>
      first
        | contradiction
        | (injection hs with hs
           subst hs
           exact h)

theorem start_progress (sched : List Input) :
    ∀ (s : Sys) (pc : StartPc), s.caller = .inStart pc → pc.remaining ≤ callerSteps sched →
      (exec s sched).caller.returned = true := by
  induction sched with
  | nil =>
    intro s pc _ h
    cases pc <;> simp [StartPc.remaining, callerSteps] at h
  | cons i rest ih =>
    intro s pc hpc h
    show (exec (next s i) rest).caller.returned = true
    obtain ⟨cfg, server, wg, handle, caller, listener, trace⟩ := s
    simp only at hpc
    subst hpc
    cases i with
    | caller now e =>
      simp only [callerSteps] at h
      cases pc
      case ret =>
        apply returned_stable
        simp [next, step, Start.step, Caller.returned]
      all_goals
        first
          | (refine ih _ _ (by simp only [next, step, Start.step, Option.getD_some]; rfl) ?_
             simp only [StartPc.remaining] at h ⊢
             omega)
    | listener e =>
      simp only [callerSteps] at h
      cases listener <;>
        first
          | exact ih _ pc (by simp [next, step, Listener.step]) h
          | exact ih _ pc (by simp [next, step, Listener.step]) h

/-- C3: whatever the `Config` is and whatever `ListenAndServe` returns in the background, a
schedule in which the caller takes six steps has `Start` returned, and in every state after
the return the handle is not `nil` and points to the server built from the `Config`; before
the return there is no handle.  `Start` has no error result, and nothing a listener step
does changes the handle. -/
theorem start_returns_handle (cfg : Config) (sched : List Input) (h : 6 ≤ callerSteps sched) :
    (run cfg sched).caller.returned = true ∧
    (run cfg sched).handle = some (newServer cfg) ∧
    ∀ more, (run cfg (sched ++ more)).handle = some (newServer cfg) := by
  have hr : (run cfg sched).caller.returned = true :=
    start_progress sched (Sys.init cfg) .ctx rfl h
  refine ⟨hr, ?_, ?_⟩
  · have hs := (serverInv_run cfg sched).handle_eq
    rw [hr] at hs
    simpa using hs
  · intro more
    have hs := (serverInv_run cfg (sched ++ more)).handle_eq
    have hr2 : (run cfg (sched ++ more)).caller.returned = true := by
      rw [run_append]
      exact returned_stable more _ hr
    rw [hr2] at hs
    simpa using hs

/-- C3 at a concrete run: an invalid host and negative timeouts; the listener goroutine runs
between line 94 and line 100 and `ListenAndServe` fails to bind. -/
theorem start_returns_handle_witness :
    (run ⟨"not a host", -1, -2⟩
      [.caller 0 none, .caller 0 none, .caller 0 none, .caller 0 none, .caller 0 none,
       .listener none, .listener none, .listener (some "listen tcp: address not a host"),
       .listener none, .caller 0 none]).caller.returned = true ∧
    (run ⟨"not a host", -1, -2⟩
      [.caller 0 none, .caller 0 none, .caller 0 none, .caller 0 none, .caller 0 none,
       .listener none, .listener none, .listener (some "listen tcp: address not a host"),
       .listener none, .caller 0 none]).handle = some (newServer ⟨"not a host", -1, -2⟩) ∧
    ∀ more, (run ⟨"not a host", -1, -2⟩
      ([.caller 0 none, .caller 0 none, .caller 0 none, .caller 0 none, .caller 0 none,
       .listener none, .listener none, .listener (some "listen tcp: address not a host"),
       .listener none, .caller 0 none] ++ more)).handle =
      some (newServer ⟨"not a host", -1, -2⟩) :=
  start_returns_handle ⟨"not a host", -1, -2⟩
    [.caller 0 none, .caller 0 none, .caller 0 none, .caller 0 none, .caller 0 none,
     .listener none, .listener none, .listener (some "listen tcp: address not a host"),
     .listener none, .caller 0 none] (by decide)

/-! ## The counter, a second `Stop`, the server settings -/

theorem launched_added (c : Caller) (h : c.launched = true) : c.added = true := by
  cases c with
  | inStart pc => cases pc <;> simp_all [Caller.launched, Caller.added]
  | started => rfl
  | inStop pc f => rfl
  | stopped f r => rfl

/-- C4, the counterexample: `ListenAndServe` has returned (a failed bind) and line 97 has not
run yet; the accept loop has returned and the counter is 1, not 0. -/
theorem counter_is_one_after_listen_returned :
    (run serverCfg (Start.schedule ++
      [.listener none, .listener none, .listener (some "bind: address already in use")])).listener
      = .done ∧
    listenReturns (run serverCfg (Start.schedule ++
      [.listener none, .listener none, .listener (some "bind: address already in use")])).trace
      = [some "bind: address already in use"] ∧
    dones (run serverCfg (Start.schedule ++
      [.listener none, .listener none, .listener (some "bind: address already in use")])).trace
      = 0 ∧
    (run serverCfg (Start.schedule ++
      [.listener none, .listener none, .listener (some "bind: address already in use")])).wg
      = 1 :=
  ⟨rfl, rfl, rfl, rfl⟩

theorem returned_launched (c : Caller) (h : c.returned = true) : c.launched = true := by
  cases c with
  | inStart pc => simp [Caller.returned] at h
  | started => rfl
  | inStop pc f => rfl
  | stopped f r => rfl

/-- C4, amended: in every state reached from a call of `Start`, the counter is the sum of the
`Add` deltas minus the number of `Done` calls and lies between 0 and 1; `Add` is called at
most once, with delta 1, and the goroutine is launched at most once and only after it; the
goroutine calls `ListenAndServe` at most once, `ListenAndServe` returns at most once, and
`Done` runs at most once and only after that return, whatever was returned.  Once `Start` has
returned, which it has after six steps of the caller, `Add(1)` has been called exactly once
and exactly one goroutine has been launched; a goroutine has been launched exactly when the
listener has left its initial state, and then `Add(1)` has been called.  The counter is 1
from the launch until `Done` has run, which covers the accept loop and the interval between
the return of `ListenAndServe` and `Done`; once the goroutine has ended the counter is 0,
`ListenAndServe` has been called and has returned exactly once and `Done` has run exactly
once. -/
theorem counter_tracks_listener (cfg : Config) (sched : List Input) :
    0 ≤ (run cfg sched).wg ∧ (run cfg sched).wg ≤ 1 ∧
    (run cfg sched).wg = (adds (run cfg sched).trace).sum - dones (run cfg sched).trace ∧
    (adds (run cfg sched).trace = [] ∨ adds (run cfg sched).trace = [1]) ∧
    launches (run cfg sched).trace ≤ (adds (run cfg sched).trace).length ∧
    listenCalls (run cfg sched).trace ≤ launches (run cfg sched).trace ∧
    (listenReturns (run cfg sched).trace).length ≤ listenCalls (run cfg sched).trace ∧
    dones (run cfg sched).trace ≤ (listenReturns (run cfg sched).trace).length ∧
    ((run cfg sched).caller.returned = true →
        adds (run cfg sched).trace = [1] ∧ launches (run cfg sched).trace = 1) ∧
    (6 ≤ callerSteps sched →
        adds (run cfg sched).trace = [1] ∧ launches (run cfg sched).trace = 1) ∧
    (launches (run cfg sched).trace = 1 ↔ (run cfg sched).listener ≠ .notStarted) ∧
    (launches (run cfg sched).trace = 1 → adds (run cfg sched).trace = [1]) ∧
    (((run cfg sched).listener = .printf ∨ (run cfg sched).listener = .listen ∨
      (run cfg sched).listener = .serving ∨ (run cfg sched).listener = .done) →
        (run cfg sched).wg = 1 ∧ dones (run cfg sched).trace = 0) ∧
    ((run cfg sched).listener = .exited →
        (run cfg sched).wg = 0 ∧ listenCalls (run cfg sched).trace = 1 ∧
        (listenReturns (run cfg sched).trace).length = 1 ∧
        dones (run cfg sched).trace = 1) := by
  obtain ⟨h1, h2, h3, h4, h5, h6, h7⟩ := counterInv_run cfg sched
  have hal := launched_added (run cfg sched).caller
  have hrl := returned_launched (run cfg sched).caller
  have hfuel : 6 ≤ callerSteps sched → (run cfg sched).caller.returned = true :=
    start_progress sched (Sys.init cfg) .ctx rfl
  unfold expectedWg at h1
  generalize (run cfg sched).wg = wg at *
  generalize (run cfg sched).listener = l at *
  generalize (run cfg sched).trace = tr at *
  generalize (run cfg sched).caller.added = a at *
  generalize (run cfg sched).caller.launched = b at *
  generalize (run cfg sched).caller.returned = c at *
  generalize (decide (6 ≤ callerSteps sched)) = d at *
  have hd : 6 ≤ callerSteps sched → c = true := hfuel
  clear hfuel
  by_cases hq : 6 ≤ callerSteps sched <;>
    cases l <;> cases a <;> cases b <;> cases c <;> simp_all [Listener.stage]

/-- C4, amended, at a concrete run: `Start` has returned and the listener goroutine is
inside `ListenAndServe`. -/
theorem counter_tracks_listener_witness :
    adds (run serverCfg (Start.schedule ++ [.listener none, .listener none])).trace = [1] ∧
    launches (run serverCfg (Start.schedule ++ [.listener none, .listener none])).trace = 1 :=
  (counter_tracks_listener serverCfg
    (Start.schedule ++ [Input.listener none, Input.listener none])).2.2.2.2.2.2.2.2.1 (by rfl)

/-- C8: when a first call of `Stop` has returned `nil`, the counter is 0 and the listener
goroutine cannot move any more; a second call of `Stop`, whatever `Shutdown` and `Close`
return in it, runs through without being blocked and returns, the counter stays 0 and `Done`
has still been called exactly once. -/
theorem second_stop_returns (cfg : Config) (sched : List Input) (f : StopFrame)
    (h : (run cfg sched).caller = .stopped f none) (now : Int) (sd cl : GoError) :
    (run cfg sched).wg = 0 ∧
    (∀ e, step (.listener e) (run cfg sched) = none) ∧
    (run cfg (sched ++ Stop.schedule now sd cl)).caller =
      .stopped ⟨now, now + 5000000000, sd, sd.bind fun _ => cl⟩ (sd.bind fun _ => cl) ∧
    (run cfg (sched ++ Stop.schedule now sd cl)).wg = 0 ∧
    dones (run cfg sched).trace = 1 ∧
    dones (run cfg (sched ++ Stop.schedule now sd cl)).trace = 1 := by
  obtain ⟨hl, hwg, hd⟩ := stopped_nil_waited cfg sched f h
  rw [run_append]
  generalize run cfg sched = s at *
  obtain ⟨c, server, wg, handle, caller, listener, trace⟩ := s
  simp only at h hl hwg hd
  subst h hl hwg
  refine ⟨rfl, fun e => rfl, ?_, ?_, hd, ?_⟩ <;>
    cases sd <;> cases cl <;>
    simp [exec, next, step, Stop.schedule, Stop.call, Stop.step, StopFrame.entry,
      withTimeoutDeadline, timeout_eq, dones, hd]

/-- C8 at a concrete run: the first `Stop` returns `nil`; in the second one `Shutdown`
fails. -/
theorem second_stop_returns_witness :
    (run serverCfg (Start.schedule ++ Listener.schedule none ++ Stop.schedule 1 none none)).wg
      = 0 ∧
    (∀ e, step (.listener e)
      (run serverCfg (Start.schedule ++ Listener.schedule none ++ Stop.schedule 1 none none))
      = none) ∧
    (run serverCfg ((Start.schedule ++ Listener.schedule none ++ Stop.schedule 1 none none) ++
      Stop.schedule 9 (some "http: Server closed") none)).caller =
      .stopped ⟨9, 9 + 5000000000, some "http: Server closed", none⟩ none ∧
    (run serverCfg ((Start.schedule ++ Listener.schedule none ++ Stop.schedule 1 none none) ++
      Stop.schedule 9 (some "http: Server closed") none)).wg = 0 ∧
    dones (run serverCfg
      (Start.schedule ++ Listener.schedule none ++ Stop.schedule 1 none none)).trace = 1 ∧
    dones (run serverCfg ((Start.schedule ++ Listener.schedule none ++
      Stop.schedule 1 none none) ++ Stop.schedule 9 (some "http: Server closed") none)).trace
      = 1 :=
  second_stop_returns serverCfg
    (Start.schedule ++ Listener.schedule none ++ Stop.schedule 1 none none)
    ⟨1, 5000000001, none, none⟩ rfl 9 (some "http: Server closed") none

/-- C9, the counterexample: a configuration whose `maxHeaderBytes` is 4096; the server `Start`
builds for it has `MaxHeaderBytes` 1048576. -/
theorem max_header_bytes_not_from_config :
    (run (Configuration.toConfig ⟨"localhost:8000", 5000000000, 5000000000, 4096⟩)
      Start.schedule).handle.map Server.MaxHeaderBytes = some 1048576 ∧
    (1048576 : Int) ≠
      (⟨"localhost:8000", 5000000000, 5000000000, 4096⟩ : Configuration).maxHeaderBytes :=
  ⟨rfl, by decide⟩

/-- C9, amended: the server `Start` builds has its address, read timeout and write timeout
from the fields `Host`, `ReadTimeout` and `WriteTimeout` of the `Config`, the four routes as
its handler, and `MaxHeaderBytes` equal to the constant `1 << 20`, that is 1048576. -/
theorem server_built_from_config (cfg : Config) (sched : List Input) (srv : Server)
    (h : (run cfg sched).server = some srv) :
    srv.Addr = cfg.Host ∧ srv.ReadTimeout = cfg.ReadTimeout ∧
    srv.WriteTimeout = cfg.WriteTimeout ∧ srv.MaxHeaderBytes = 1048576 ∧
    srv.Handler = ["/", "/second", "/third/\x7bnumber\x7d", "/static/"] := by
  have hs := (serverInv_run cfg sched).server_eq
  rw [h] at hs
  split at hs
  · injection hs with hs
    subst hs
    exact ⟨rfl, rfl, rfl, rfl, rfl⟩
  · contradiction

/-- C9, amended, at a concrete run. -/
theorem server_built_from_config_witness :
    (newServer serverCfg).Addr = serverCfg.Host ∧
    (newServer serverCfg).ReadTimeout = serverCfg.ReadTimeout ∧
    (newServer serverCfg).WriteTimeout = serverCfg.WriteTimeout ∧
    (newServer serverCfg).MaxHeaderBytes = 1048576 ∧
    (newServer serverCfg).Handler = ["/", "/second", "/third/\x7bnumber\x7d", "/static/"] :=
  server_built_from_config serverCfg Start.schedule (newServer serverCfg) rfl

/-! ## `main` -/

theorem mainSys_induction (P : MainSys → Prop) (h0 : P MainSys.init)
    (hstep : ∀ m i m2, P m → MainSys.step i m = some m2 → P m2) (sched : List MainInput) :
    P (MainSys.run sched) := by
  have key : ∀ (l : List MainInput) (m : MainSys), P m → P (l.foldl MainSys.next m) := by
    intro l
    induction l with
    | nil => intro m h; exact h
    | cons i rest ih =>
      intro m h
      show P (rest.foldl MainSys.next (MainSys.next m i))
      apply ih
      unfold MainSys.next
      cases hs : MainSys.step i m with
      | none => exact h
      | some m2 => exact hstep m i m2 h hs
  exact key sched _ h0

theorem mainInv_init : MainInv MainSys.init := by
  constructor <;>
    simp [MainSys.init, Sys.init, mainEvents, mainScript, MainPc.progress, MainPc.callerOk,
      interrupts, serverCalls, callTrace]

set_option maxHeartbeats 4000000 in
theorem mainInv_step (m : MainSys) (i : MainInput) (m2 : MainSys) (h : MainInv m)
    (hs : MainSys.step i m = some m2) : MainInv m2 := by
  obtain ⟨pc, ⟨cfg, server, wg, handle, caller, listener, trace⟩, notified, pending, killed⟩ := m
  obtain ⟨h1, h2, h3, h4, h5, h6, h7⟩ := h
  simp only at h1 h2 h3 h4 h5 h6 h7
  cases killed
  case true => simp [MainSys.step, MainSys.alive] at hs
  case false =>
  cases i with
  | interrupt =>
    cases notified <;>
      simp only [MainSys.step, Sys.emit, if_true, if_false, Bool.false_eq_true] at hs <;>
      split at hs <;>
      first
        | contradiction
        | (injection hs with hs
           subst hs
           constructor
           · simpa [mainEvents, Event.ofMain] using h1
           · exact h2
           · exact h3
           · intro _
             simp [interrupts]
           · intro _
             simp [interrupts]
           · intro hp
             simpa [serverCalls] using h6 hp
           · intro hp
             simpa [serverCalls, callTrace, Event.ofStop] using h7 hp)
  | listener e =>
    cases listener <;>
      simp only [MainSys.step, Listener.step, Option.map] at hs <;>
      split at hs <;>
      first
        | contradiction
        | (injection hs with hs
           subst hs
           constructor
           · simpa [mainEvents, Event.ofMain] using h1
           · exact h2
           · exact h3
           · intro hp
             simpa [interrupts] using h4 hp
           · intro hp
             simpa [interrupts] using h5 hp
           · intro hp
             simpa [serverCalls] using h6 hp
           · intro hp
             simpa [serverCalls, callTrace, Event.ofStop] using h7 hp)
  | main now e =>
    cases pc
    case start =>
      obtain ⟨pc2, hc⟩ := h2
      subst hc
      cases pc2 <;>
        simp only [MainSys.step, MainSys.alive, main.step, Start.step, if_true] at hs <;>
        injection hs with hs <;> subst hs
      all_goals
        constructor
        · first
          | simpa [mainEvents, Event.ofMain, mainScript, MainPc.progress] using h1
          | (simp [mainEvents, Event.ofMain, mainScript, MainPc.progress] at h1 ⊢
             simp [h1])
        · first
          | exact h2
          | exact rfl
          | exact ⟨_, h2⟩
          | exact ⟨_, rfl⟩
          | exact ⟨_, _, rfl⟩
        · first
          | exact h3
          | simpa [MainPc.progress] using h3
          | simp [MainPc.progress]
        · intro hp
          first
          | simpa [interrupts] using h4 hp
          | simp at hp
        · intro hp
          first
          | (simp only [MainPc.progress] at hp
             omega)
          | (simp [MainPc.progress] at h5
             simpa [interrupts] using h5)
          | (simp at h4
             simpa [interrupts] using h4)
        · intro hp
          first
          | (simp only [MainPc.progress] at hp
             omega)
          | (simp [MainPc.progress] at h6
             simpa [serverCalls] using h6)
        · intro hp
          first
          | (simp only [MainPc.progress] at hp
             omega)
          | (simp [MainPc.progress] at h7
             simpa [serverCalls, callTrace, Event.ofStop] using h7)
          | (simp [MainPc.progress] at h6
             simp [serverCalls, callTrace, h6])
    case stop =>
      obtain ⟨pc2, f, hc⟩ := h2
      subst hc
      cases pc2
      case wait =>
        by_cases hw : wg = 0
        · simp only [MainSys.step, MainSys.alive, main.step, Stop.step, hw, Option.map,
            if_true] at hs
          injection hs with hs
          subst hs
          constructor
          · first
            | simpa [mainEvents, Event.ofMain, mainScript, MainPc.progress] using h1
            | (simp [mainEvents, Event.ofMain, mainScript, MainPc.progress] at h1 ⊢
               simp [h1])
          · first
            | exact h2
            | exact rfl
            | exact ⟨_, h2⟩
            | exact ⟨_, rfl⟩
            | exact ⟨_, _, rfl⟩
          · first
            | exact h3
            | simpa [MainPc.progress] using h3
            | simp [MainPc.progress]
          · intro hp
            first
            | simpa [interrupts] using h4 hp
            | simp at hp
          · intro hp
            first
            | (simp only [MainPc.progress] at hp
               omega)
            | (simp [MainPc.progress] at h5
               simpa [interrupts] using h5)
            | (simp at h4
               simpa [interrupts] using h4)
          · intro hp
            first
            | (simp only [MainPc.progress] at hp
               omega)
            | (simp [MainPc.progress] at h6
               simpa [serverCalls] using h6)
          · intro hp
            first
            | (simp only [MainPc.progress] at hp
               omega)
            | (simp [MainPc.progress] at h7
               simpa [serverCalls, callTrace, Event.ofStop] using h7)
            | (simp [MainPc.progress] at h6
               simp [serverCalls, callTrace, h6])
        · simp [MainSys.step, MainSys.alive, main.step, Stop.step, hw] at hs
      all_goals
        cases e <;>
          simp only [MainSys.step, MainSys.alive, main.step, Stop.step, Option.map, if_true]
            at hs <;>
          injection hs with hs <;> subst hs
      all_goals
        constructor
        · first
          | simpa [mainEvents, Event.ofMain, mainScript, MainPc.progress] using h1
          | (simp [mainEvents, Event.ofMain, mainScript, MainPc.progress] at h1 ⊢
             simp [h1])
        · first
          | exact h2
          | exact rfl
          | exact ⟨_, h2⟩
          | exact ⟨_, rfl⟩
          | exact ⟨_, _, rfl⟩
        · first
          | exact h3
          | simpa [MainPc.progress] using h3
          | simp [MainPc.progress]
        · intro hp
          first
          | simpa [interrupts] using h4 hp
          | simp at hp
        · intro hp
          first
          | (simp only [MainPc.progress] at hp
             omega)
          | (simp [MainPc.progress] at h5
             simpa [interrupts] using h5)
          | (simp at h4
             simpa [interrupts] using h4)
        · intro hp
          first
          | (simp only [MainPc.progress] at hp
             omega)
          | (simp [MainPc.progress] at h6
             simpa [serverCalls] using h6)
        · intro hp
          first
          | (simp only [MainPc.progress] at hp
             omega)
          | (simp [MainPc.progress] at h7
             simpa [serverCalls, callTrace, Event.ofStop] using h7)
          | (simp [MainPc.progress] at h6
             simp [serverCalls, callTrace, h6])
    case recv =>
      cases pending <;>
        simp only [MainSys.step, MainSys.alive, main.step, Sys.emit, if_true, if_false,
          Bool.false_eq_true] at hs <;>
        first
          | contradiction
          | (injection hs with hs
             subst hs
             constructor
             · first
               | simpa [mainEvents, Event.ofMain, mainScript, MainPc.progress] using h1
               | (simp [mainEvents, Event.ofMain, mainScript, MainPc.progress] at h1 ⊢
                  simp [h1])
             · first
               | exact h2
               | exact rfl
               | exact ⟨_, h2⟩
               | exact ⟨_, rfl⟩
               | exact ⟨_, _, rfl⟩
             · first
               | exact h3
               | simpa [MainPc.progress] using h3
               | simp [MainPc.progress]
             · intro hp
               first
               | simpa [interrupts] using h4 hp
               | simp at hp
             · intro hp
               first
               | (simp only [MainPc.progress] at hp
                  omega)
               | (simp [MainPc.progress] at h5
                  simpa [interrupts] using h5)
               | (simp at h4
                  simpa [interrupts] using h4)
             · intro hp
               first
               | (simp only [MainPc.progress] at hp
                  omega)
               | (simp [MainPc.progress] at h6
                  simpa [serverCalls] using h6)
             · intro hp
               first
               | (simp only [MainPc.progress] at hp
                  omega)
               | (simp [MainPc.progress] at h7
                  simpa [serverCalls, callTrace, Event.ofStop] using h7)
               | (simp [MainPc.progress] at h6
                  simp [serverCalls, callTrace, h6]))
    case exited => simp [MainSys.step, MainSys.alive] at hs
    all_goals
      simp only [MainSys.step, MainSys.alive, main.step, Sys.emit, Stop.call, if_true] at hs
      injection hs with hs
      subst hs
      constructor
      · first
        | simpa [mainEvents, Event.ofMain, mainScript, MainPc.progress] using h1
        | (simp [mainEvents, Event.ofMain, mainScript, MainPc.progress] at h1 ⊢
           simp [h1])
      · first
        | exact h2
        | exact rfl
        | exact ⟨_, h2⟩
        | exact ⟨_, rfl⟩
        | exact ⟨_, _, rfl⟩
      · first
        | exact h3
        | simpa [MainPc.progress] using h3
        | simp [MainPc.progress]
      · intro hp
        first
        | simpa [interrupts] using h4 hp
        | simp at hp
      · intro hp
        first
        | (simp only [MainPc.progress] at hp
           omega)
        | (simp [MainPc.progress] at h5
           simpa [interrupts] using h5)
        | (simp at h4
           simpa [interrupts] using h4)
      · intro hp
        first
        | (simp only [MainPc.progress] at hp
           omega)
        | (simp [MainPc.progress] at h6
           simpa [serverCalls] using h6)
      · intro hp
        first
        | (simp only [MainPc.progress] at hp
           omega)
        | (simp [MainPc.progress] at h7
           simpa [serverCalls, callTrace, Event.ofStop] using h7)
        | (simp [MainPc.progress] at h6
           simp [serverCalls, callTrace, h6])

theorem mainInv_run (sched : List MainInput) : MainInv (MainSys.run sched) :=
  mainSys_induction MainInv mainInv_init mainInv_step sched

theorem stopCalls_mainEvents (tr : List Event) : stopCalls (mainEvents tr) = stopCalls tr := by
  induction tr with
  | nil => rfl
  | cons e tr ih => cases e <;> simp [stopCalls, mainEvents, Event.ofMain, ih]

theorem serverCalls_callTrace_nil (tr : List Event) (h : serverCalls tr = []) :
    serverCalls (callTrace tr) = [] := by
  induction tr with
  | nil => rfl
  | cons e tr ih => cases e <;> simp_all [serverCalls, callTrace, Event.ofStop]

/-- C10, the counterexample: `Start` has returned and line 44 has deferred `Stop`; an
interrupt arrives before line 47 has subscribed to it, the runtime terminates the process, no
thread can move any more, and `Stop` has not been called. -/
theorem interrupt_before_notify_skips_stop :
    (MainSys.run
      [.main 0 none, .main 0 none, .main 0 none, .main 0 none, .main 0 none, .main 0 none,
       .main 0 none, .main 0 none, .interrupt]).pc = .makeChan ∧
    (MainSys.run
      [.main 0 none, .main 0 none, .main 0 none, .main 0 none, .main 0 none, .main 0 none,
       .main 0 none, .main 0 none, .interrupt]).killed = true ∧
    mainEvents (MainSys.run
      [.main 0 none, .main 0 none, .main 0 none, .main 0 none, .main 0 none, .main 0 none,
       .main 0 none, .main 0 none, .interrupt]).sys.trace =
      [.deferStop, .startReturn, .startCall] ∧
    stopCalls (MainSys.run
      [.main 0 none, .main 0 none, .main 0 none, .main 0 none, .main 0 none, .main 0 none,
       .main 0 none, .main 0 none, .interrupt]).sys.trace = 0 ∧
    ∀ i, MainSys.step i (MainSys.run
      [.main 0 none, .main 0 none, .main 0 none, .main 0 none, .main 0 none, .main 0 none,
       .main 0 none, .main 0 none, .interrupt]) = none :=
  ⟨rfl, rfl, rfl, rfl, fun _ => rfl⟩

/-- C10, amended: in every state of every run of the process, the lifecycle events that have
happened are an initial part of the sequence: `Start` called, `Start` returned, `defer`,
`make`, `signal.Notify`, the receive from `sigChan`, `Println`, the return of `main`, the call
of `Stop`.  `Stop` is called at most once; when it has been called the whole sequence has
happened before it and an interrupt has arrived; when `main` has exited it has been called
exactly once.  Before the call of `Stop` no `Shutdown` and no `Close` has been called, and
every `Shutdown` and `Close` of the run belongs to the body of that call.  A run in which the
interrupt arrives after line 47 does reach the exit. -/
theorem main_lifecycle (sched : List MainInput) :
    (∃ k, mainEvents (MainSys.run sched).sys.trace = mainScript.drop k) ∧
    stopCalls (MainSys.run sched).sys.trace ≤ 1 ∧
    (1 ≤ stopCalls (MainSys.run sched).sys.trace →
      mainEvents (MainSys.run sched).sys.trace = mainScript ∧
      1 ≤ interrupts (MainSys.run sched).sys.trace) ∧
    ((MainSys.run sched).pc = .exited → stopCalls (MainSys.run sched).sys.trace = 1) ∧
    (stopCalls (MainSys.run sched).sys.trace = 0 →
      serverCalls (MainSys.run sched).sys.trace = []) ∧
    serverCalls (MainSys.run sched).sys.trace =
      serverCalls (callTrace (MainSys.run sched).sys.trace) ∧
    (MainSys.run
      [.main 0 none, .main 0 none, .main 0 none, .main 0 none, .main 0 none, .main 0 none,
       .main 0 none, .listener none, .listener none, .main 0 none, .main 0 none,
       .main 0 none, .interrupt, .main 0 none, .main 0 none, .main 0 none, .main 1 none,
       .main 1 none, .main 1 none, .listener (some "http: Server closed"), .listener none,
       .main 1 none, .main 1 none, .main 1 none]).pc = .exited := by
  obtain ⟨h1, h2, h3, h4, h5, h6, h7⟩ := mainInv_run sched
  have hsc := stopCalls_mainEvents (MainSys.run sched).sys.trace
  have hnil := serverCalls_callTrace_nil (MainSys.run sched).sys.trace
  rw [h1] at hsc
  generalize (MainSys.run sched).sys.trace = tr at *
  generalize (MainSys.run sched).pc = pc at *
  refine ⟨⟨_, h1⟩, ?_, ?_, ?_, ?_, ?_, rfl⟩
  · rw [← hsc]
    cases pc <;> simp [MainPc.progress, mainScript, stopCalls]
  · intro hp
    rw [← hsc] at hp
    cases pc <;> simp [MainPc.progress, mainScript, stopCalls] at hp h1 h5 ⊢ <;>
      exact ⟨h1, h5⟩
  · intro hp
    subst hp
    rw [← hsc]
    simp [MainPc.progress, mainScript, stopCalls]
  · intro hp
    rw [← hsc] at hp
    cases pc <;> simp [MainPc.progress, mainScript, stopCalls] at hp h6 ⊢ <;> exact h6
  · cases pc <;> simp only [MainPc.progress] at h6 h7 <;>
      first
        | exact h7 (by omega)
        | (have h8 := h6 (by omega)
           rw [hnil h8, h8])

end LOLPal
